import Mathlib

/-!
Verification of `craftutils` (src/retrieve.py) response-parsing and
filesystem-effect logic, shallowly embedded in Lean 4.

Python strings / byte strings are modelled as `List Char`; HTTP responses
are passed to the embedded functions as explicit arguments (oracles);
filesystem writes are modelled as explicit lists of effect descriptors.
A Python function that may raise is modelled with `PyResult`; a loop that
may read past the end of a string, or may fail to terminate, is modelled
with `Option` (`none` = IndexError / divergence at that point).
-/

set_option maxRecDepth 10000

/-- Outcome of a Python call: a normal return or a raised exception,
identified by the exception class name. -/
inductive PyResult (α : Type) where
  | ret (a : α)
  | raise (exn : String)
  deriving DecidableEq, Repr

/-- `fors2_filters_retrievable` (retrieve.py line 15). -/
def fors2FiltersRetrievable : List String := ["I_BESS", "R_SPEC", "b_HIGH", "v_HIGH"]

/-- `retrieve_fors2_calib` (retrieve.py lines 18-62), with the HTTP
response body passed in as `body`.  The function raises `ValueError` when
`fil` is not in `fors2_filters_retrievable` (line 27-28) before anything
else happens; otherwise it returns the response with every `'!'` byte
removed (`page.read().replace(b'!', b'')`, line 62). -/
def retrieveFors2Calib (fil : String) (body : List Char) : PyResult (List Char) :=
  if fil ∈ fors2FiltersRetrievable then
    .ret (body.filter (fun c => c ≠ '!'))
  else
    .raise "ValueError"

/-- Python `str.find` restricted to a single-character needle, as used by
`string.find('\n')` in `save_fors2_calib` (line 78): index of the first
character satisfying `p`, or `none` when there is none (Python returns -1;
line 78 immediately adds 1, so we fold the two steps into `fors2Start`). -/
def pyFindIdx (p : Char → Bool) : List Char → Option Nat
  | [] => none
  | c :: cs => if p c then some 0 else (pyFindIdx p cs).map (fun k => k + 1)

/-- `i = j = string.find('\n') + 1` (line 78): one past the first newline,
and 0 when there is no newline (find returns -1, plus 1 gives 0). -/
def fors2Start (s : List Char) : Nat :=
  match pyFindIdx (fun c => c = '\n') s with
  | some k => k + 1
  | none => 0

/-- The loop `while string[j] == '-': j += 1` (lines 79-80), run on the
suffix of the string starting at the loop's initial index: returns the
offset of the first non-dash character, or `none` when the scan runs off
the end of the string (in Python, `string[j]` with `j == len(string)`
raises IndexError). -/
def dashSkip : List Char → Option Nat
  | [] => none
  | c :: cs => if c = '-' then (dashSkip cs).map (fun k => k + 1) else some 0

/-- The header-stripping computation of `save_fors2_calib` (lines 78-81):
`i = j = string.find('\n') + 1; while string[j] == '-': j += 1;
string = string[:i] + string[j + 1:]`.  `none` models the IndexError when
the dash scan runs off the end of the string. -/
def fors2Strip (s : List Char) : Option (List Char) :=
  (dashSkip (s.drop (fors2Start s))).map
    (fun k => s.take (fors2Start s) ++ s.drop (fors2Start s + k + 1))

/-- A filesystem/network effect performed by the save/download functions. -/
inductive FsOp where
  | mkdirp (path : String)
  | mkdirNested (path : String)
  | writeText (path : String) (content : List Char)
  | writeBytes (path : String) (content : List Nat)
  | getJson (url : String)
  | getFile (url : String)
  deriving DecidableEq, Repr

/-- `save_fors2_calib` (lines 65-84) given the already-retrieved table
string: strips the dash separator line via `fors2Strip`, writes the result
to `output` and returns it; `none` models the IndexError propagating out
of lines 79-80. -/
def saveFors2Calib (output : String) (retrieved : List Char) : Option (List FsOp × List Char) :=
  (fors2Strip retrieved).map (fun st => ([FsOp.writeText output st], st))

/-- The Python test `irsa_xml[i:i + len(pat)] == pat` for a non-negative
index `i`: the slice is shorter than `pat` near the end of the string and
then compares unequal, so this is exactly "`pat` is a prefix of the suffix
of `s` starting at `i`". -/
def occursAt (s pat : List Char) (i : Nat) : Bool :=
  pat.isPrefixOf (s.drop i)

/-- Python `str.find` for a substring needle, as used by
`irsa_xml.find("extinction.tbl")` (line 130): index of the leftmost
occurrence, `none` for Python's -1. -/
def findSub (pat : List Char) : List Char → Option Nat
  | [] => if pat.isPrefixOf ([] : List Char) then some 0 else none
  | c :: cs =>
    if pat.isPrefixOf (c :: cs) then some 0
    else (findSub pat cs).map (fun k => k + 1)

/-- The backward scan of `retrieve_irsa_extinction` (lines 133-135):
starting from index `i` and decrementing, stop at the first index where
`pat` occurs.  When no occurrence exists at or below `i`, the Python loop
decrements `i` into negative values, where the slice `irsa_xml[i:i + 8]`
can never equal `"https://"` again once `i < -len(irsa_xml)`; the loop
never terminates, which we model as `none`. -/
def searchBack (s pat : List Char) : Nat → Option Nat
  | 0 => if occursAt s pat 0 then some 0 else none
  | i + 1 => if occursAt s pat (i + 1) then some (i + 1) else searchBack s pat i

/-- `"extinction.tbl"`, the needle of line 130; `j = i + 14` on line 131 is
`i` plus its length. -/
def extTblPat : List Char := ("extinction.tbl").toList

/-- `"https://"`, the needle of lines 132-135. -/
def httpsPat : List Char := ("https://").toList

/-- The table-URL extraction of `retrieve_irsa_extinction` (lines 130-136):
`i = irsa_xml.find("extinction.tbl"); j = i + 14;` then scan `i` backwards
until `irsa_xml[i:i + 8] == "https://"`; the result is `irsa_xml[i:j]`.
`none` models the diverging backward scan (no `https://` at or before the
needle, or needle absent so `i = -1` starts the scan on negative indices). -/
def irsaTableUrl (s : List Char) : Option (List Char) :=
  match findSub extTblPat s with
  | none => none
  | some i0 =>
    match searchBack s httpsPat i0 with
    | none => none
    | some i => some ((s.drop i).take (i0 + 14 - i))

/-- The fields of a DES job-status response consulted by
`job_status_poll_des` (lines 380-398): `response['status']` and
`response['jobs'][0]['job_status']`. -/
structure DesResponse where
  status : String
  jobStatus : String
  deriving DecidableEq, Repr

/-- The conditions under which one iteration of the polling loop of
`job_status_poll_des` is its last: `response['status'] != 'ok'` (break on
line 389), `job_status` equal to `'success'` or `'failure'` (break on
line 393), or `job_status` equal to `'ok'` (the `while job_status != 'ok'`
condition on line 384 fails on re-entry). -/
def StopResp (r : DesResponse) : Prop :=
  r.status ≠ "ok" ∨ r.jobStatus = "success" ∨ r.jobStatus = "failure" ∨ r.jobStatus = "ok"

instance (r : DesResponse) : Decidable (StopResp r) := by
  unfold StopResp
  infer_instance

/-- The polling loop of `job_status_poll_des` (lines 380-398), with the
sequence of server responses passed in as the oracle `resps` (the `k`-th
fetch on line 386 returns `resps k`) and an explicit fuel bound: `none`
means the loop has not returned within `fuel` iterations, `some r` that it
returned response `r`.  The branch order matches the source: status check,
then success/failure check, then the loop condition on `job_status`. -/
def desPoll (resps : Nat → DesResponse) : Nat → Nat → Option DesResponse
  | _, 0 => none
  | k, fuel + 1 =>
    if (resps k).status ≠ "ok" then some (resps k)
    else if (resps k).jobStatus = "success" ∨ (resps k).jobStatus = "failure" then some (resps k)
    else if (resps k).jobStatus = "ok" then some (resps k)
    else desPoll resps (k + 1) fuel

/-- `job_status_poll_des` run from its first fetch. -/
def jobStatusPollDes (resps : Nat → DesResponse) (fuel : Nat) : Option DesResponse :=
  desPoll resps 0 fuel

/-- A server that always answers status `'ok'` with job status
`'pending'`. -/
def pendingSeq : Nat → DesResponse := fun _ => ⟨"ok", "pending"⟩

/-- `check_auth_token_des` (lines 320-322), with the set of stored keys
passed in: raises `KeyError` when `'des_auth_token'` is not among them. -/
def checkAuthTokenDes (ks : List String) : PyResult Unit :=
  if "des_auth_token" ∈ ks then .ret () else .raise "KeyError"

/-- `retrieve_sdss_photometry` (lines 182-215), with the import outcome and
the CasJobs query result (rows of the dataframe) as oracles: when SciServer
cannot be imported the function prints advice and returns `None`
(lines 192-198); a query result with no rows is also turned into `None`
(lines 213-214). -/
def retrieveSdssPhotometry (sciserverInstalled : Bool) (df : List (List Char)) :
    Option (List (List Char)) :=
  if sciserverInstalled = false then none
  else if df.length = 0 then none
  else some df

/-- An item of a DES file-listing JSON response, as consumed by
`download_job_files_des` (lines 401-416): a `type` string, a `name`, the
file content served at `url/<name>` (consulted only for files), and the
listing served at `url/<name>/json` (consulted only for directories). -/
inductive RItem where
  | mk (type : String) (name : String) (content : List Nat) (children : List RItem)

/-- The body of the `for item in r.json()` loop of `download_job_files_des`
(lines 405-413), sequenced over the listing: a `'directory'` item triggers
the recursive call `download_job_files_des(url/<name>, output/<name>)`
(which makes the sub-directory, fetches its listing and descends); a
`'file'` item is fetched from `url/<name>` and written to
`output/<name>`; an item of any other type is skipped silently. -/
def downloadItems (url output : String) : List RItem → List FsOp
  | [] => []
  | RItem.mk t n c ch :: rest =>
    (if t = "directory" then
      FsOp.mkdirp (output ++ "/" ++ n) :: FsOp.getJson (url ++ "/" ++ n) ::
        downloadItems (url ++ "/" ++ n) (output ++ "/" ++ n) ch
    else if t = "file" then
      [FsOp.getFile (url ++ "/" ++ n), FsOp.writeBytes (output ++ "/" ++ n) c]
    else []) ++ downloadItems url output rest

/-- `download_job_files_des` (lines 401-416) on the listing served at
`url/json`: performs `os.makedirs(output)`, fetches the listing, processes
its items, and returns the top-level listing (`r.json()`, line 415). -/
def downloadJobFilesDes (url output : String) (listing : List RItem) :
    List FsOp × List RItem :=
  (FsOp.mkdirp output :: FsOp.getJson url :: downloadItems url output listing, listing)

/-- The hypothesis of claim C5: every item of the listing has type
`'file'` or `'directory'`, recursively through directories. -/
def wellTypedItems : List RItem → Bool
  | [] => true
  | RItem.mk t _ _ ch :: rest =>
    (t == "file" || (t == "directory" && wellTypedItems ch)) && wellTypedItems rest

/-- Modelled from the claim's words (refinement spec for C5): mirror the
remote tree under `output` — write each file item's downloaded content to
`output/<name>`, and for each directory item recurse from `url/<name>`
into `output/<name>`, creating the directory and fetching its listing. -/
def mirrorItems (url output : String) : List RItem → List FsOp
  | [] => []
  | RItem.mk t n c ch :: rest =>
    (if t = "file" then
      [FsOp.getFile (url ++ "/" ++ n), FsOp.writeBytes (output ++ "/" ++ n) c]
    else
      FsOp.mkdirp (output ++ "/" ++ n) :: FsOp.getJson (url ++ "/" ++ n) ::
        mirrorItems (url ++ "/" ++ n) (output ++ "/" ++ n) ch) ++ mirrorItems url output rest

/-- `save_sdss_photometry` (lines 218-235) given the result of
`retrieve_sdss_photometry`: when a dataframe was retrieved it makes the
nested output directories (`u.mkdir_check_nested`, line 230) and writes the
CSV rendering of the dataframe to `output` (line 232), returning the
dataframe; when the retrieval returned `None` it only prints a message and
returns `None`, performing no filesystem operation. -/
def saveSdssPhotometry (df : Option (List Char)) (output : String) :
    List FsOp × Option (List Char) :=
  match df with
  | some d => ([FsOp.mkdirNested output, FsOp.writeText output d], some d)
  | none => ([], none)

/-- `save_des_photometry` (lines 462-480) given the result of
`retrieve_des_photometry`: when data was retrieved it makes the nested
output directories (line 474) and writes the bytes to `output`
(lines 476-477), returning the data; when the retrieval returned `None` it
only prints a message and returns `None`, performing no filesystem
operation. -/
def saveDesPhotometry (data : Option (List Nat)) (output : String) :
    List FsOp × Option (List Nat) :=
  match data with
  | some d => ([FsOp.mkdirNested output, FsOp.writeBytes output d], some d)
  | none => ([], none)

lemma pyFindIdx_of_first (p : Char → Bool) (pre : List Char) (c : Char) (rest : List Char)
    (hpre : ∀ a ∈ pre, p a = false) (hc : p c = true) :
    pyFindIdx p (pre ++ c :: rest) = some pre.length := by
  induction pre with
  | nil => simp [pyFindIdx, hc]
  | cons b bs ih =>
    have hb : p b = false := hpre b (by simp)
    have ih' := ih (fun a ha => hpre a (by simp [ha]))
    simp [pyFindIdx, hb, ih']

lemma dashSkip_run (ds : List Char) (c : Char) (rest : List Char)
    (hds : ∀ a ∈ ds, a = '-') (hc : c ≠ '-') :
    dashSkip (ds ++ c :: rest) = some ds.length := by
  induction ds with
  | nil => simp [dashSkip, hc]
  | cons b bs ih =>
    have hb : b = '-' := hds b (by simp)
    have ih' := ih (fun a ha => hds a (by simp [ha]))
    simp [dashSkip, hb, ih']

lemma fors2Start_eq (pre tail : List Char) (hpre : ∀ a ∈ pre, a ≠ '\n') :
    fors2Start (pre ++ '\n' :: tail) = pre.length + 1 := by
  have h := pyFindIdx_of_first (fun c => decide (c = '\n')) pre '\n' tail
    (fun a ha => by simp [hpre a ha]) (by simp)
  simp [fors2Start, h]

lemma fors2Strip_eq (pre ds rest : List Char) (c : Char)
    (hpre : ∀ a ∈ pre, a ≠ '\n') (hds : ∀ a ∈ ds, a = '-') (hc : c ≠ '-') :
    fors2Strip (pre ++ '\n' :: (ds ++ c :: rest)) = some (pre ++ '\n' :: rest) := by
  have hstart := fors2Start_eq pre (ds ++ c :: rest) hpre
  have hsplit : pre ++ '\n' :: (ds ++ c :: rest) = (pre ++ ['\n']) ++ (ds ++ c :: rest) := by
    simp
  have hdrop : (pre ++ '\n' :: (ds ++ c :: rest)).drop (pre.length + 1) = ds ++ c :: rest := by
    rw [hsplit]
    exact List.drop_left' (by simp)
  have htake : (pre ++ '\n' :: (ds ++ c :: rest)).take (pre.length + 1) = pre ++ ['\n'] := by
    rw [hsplit]
    exact List.take_left' (by simp)
  have hdrop2 : (pre ++ '\n' :: (ds ++ c :: rest)).drop (pre.length + 1 + ds.length + 1)
      = rest := by
    have hsplit2 : pre ++ '\n' :: (ds ++ c :: rest)
        = ((pre ++ ['\n']) ++ (ds ++ [c])) ++ rest := by simp
    rw [hsplit2]
    exact List.drop_left' (by simp; omega)
  unfold fors2Strip
  rw [hstart, hdrop, dashSkip_run ds c rest hds hc, Option.map_some']
  rw [htake, hdrop2]
  simp

/-- C1: for a response of the form `header-line ++ "\n" ++ dash-run ++ c ++ rest`
(with `c` not a dash, so the dash run is the maximal run right after the
first newline), `save_fors2_calib` writes to `output` and returns the first
line (newline included) concatenated with the remainder of the response
starting one character past the end of the dash run: the header line is
kept, and the dash separator run together with the single character that
terminates it (`c`, the separator line's newline in practice) is removed. -/
theorem save_fors2_calib_strips_separator (output : String) (pre ds rest : List Char) (c : Char)
    (hpre : ∀ a ∈ pre, a ≠ '\n') (hds : ∀ a ∈ ds, a = '-') (hc : c ≠ '-') :
    saveFors2Calib output (pre ++ '\n' :: (ds ++ c :: rest)) =
      some ([FsOp.writeText output (pre ++ '\n' :: rest)], pre ++ '\n' :: rest) := by
  unfold saveFors2Calib
  rw [fors2Strip_eq pre ds rest c hpre hds hc]
  rfl

theorem save_fors2_calib_strips_separator_witness :
    saveFors2Calib "out.txt" (['a', 'b'] ++ '\n' :: (['-', '-'] ++ '\n' :: ['c', 'd'])) =
      some ([FsOp.writeText "out.txt" (['a', 'b'] ++ '\n' :: ['c', 'd'])],
        ['a', 'b'] ++ '\n' :: ['c', 'd']) :=
  save_fors2_calib_strips_separator "out.txt" ['a', 'b'] ['-', '-'] ['c', 'd'] '\n'
    (by decide) (by decide) (by decide)

lemma dashSkip_isSome_iff (l : List Char) : (dashSkip l).isSome ↔ ∃ c ∈ l, c ≠ '-' := by
  induction l with
  | nil => simp [dashSkip]
  | cons b bs ih =>
    by_cases hb : b = '-'
    · simp [dashSkip, hb, ih]
    · simp [dashSkip, hb]

/-- C10: the dash-skipping loop of `save_fors2_calib` is index-safe exactly
when the string has, at or after the position one past its first newline
(position 0 when there is no newline), a character that is not a dash; when
every character from that position on is a dash (in particular for the
empty string), the loop reads past the end of the string, modelled here by
`fors2Strip` returning `none`. -/
theorem fors2_strip_index_safety (s : List Char) :
    ((∃ c ∈ s.drop (fors2Start s), c ≠ '-') → (fors2Strip s).isSome) ∧
      ((∀ c ∈ s.drop (fors2Start s), c = '-') → fors2Strip s = none) := by
  constructor
  · intro hex
    have h := (dashSkip_isSome_iff (s.drop (fors2Start s))).2 hex
    unfold fors2Strip
    simpa using h
  · intro hall
    have h : ¬ (dashSkip (s.drop (fors2Start s))).isSome := by
      rw [dashSkip_isSome_iff]
      push_neg
      exact hall
    rw [Option.not_isSome_iff_eq_none] at h
    unfold fors2Strip
    rw [h]
    rfl

theorem fors2_strip_index_safety_witness :
    (fors2Strip ("ab\n--x").toList).isSome ∧ fors2Strip ("ab\n--").toList = none :=
  ⟨(fors2_strip_index_safety ("ab\n--x").toList).1 (by decide),
    (fors2_strip_index_safety ("ab\n--").toList).2 (by decide)⟩

/-- C8: the filter check of `retrieve_fors2_calib` (lines 27-28) raises
`ValueError` for every `fil` outside `fors2_filters_retrievable`, uniformly
in the HTTP response (the raise happens before the request on line 61 is
issued, so the embedded function raises for every oracle `body`); for every
`fil` in the list the check raises nothing and the call returns normally. -/
theorem retrieve_fors2_calib_filter_check (fil : String) :
    (fil ∉ fors2FiltersRetrievable →
      ∀ body : List Char, retrieveFors2Calib fil body = .raise "ValueError") ∧
      (fil ∈ fors2FiltersRetrievable →
        ∀ body : List Char, ∃ out, retrieveFors2Calib fil body = .ret out) := by
  constructor
  · intro h body
    simp [retrieveFors2Calib, h]
  · intro h body
    refine ⟨body.filter (fun c => c ≠ '!'), ?_⟩
    simp [retrieveFors2Calib, h]

theorem retrieve_fors2_calib_filter_check_witness :
    retrieveFors2Calib "FOO" ['a'] = .raise "ValueError" ∧
      ∃ out, retrieveFors2Calib "I_BESS" ['a'] = .ret out :=
  ⟨(retrieve_fors2_calib_filter_check "FOO").1 (by decide) ['a'],
    (retrieve_fors2_calib_filter_check "I_BESS").2 (by decide) ['a']⟩

/-- C9: whenever `retrieve_fors2_calib` returns normally, the returned
string contains no `'!'` character (`page.read().replace(b'!', b'')`,
line 62), and hence neither does the stripped string that
`save_fors2_calib` subsequently writes to disk. -/
theorem retrieve_fors2_calib_no_bang (fil : String) (body out : List Char)
    (h : retrieveFors2Calib fil body = .ret out) :
    '!' ∉ out ∧ ∀ written, fors2Strip out = some written → '!' ∉ written := by
  by_cases hf : fil ∈ fors2FiltersRetrievable
  · simp only [retrieveFors2Calib, hf, if_pos, PyResult.ret.injEq] at h
    have hout : '!' ∉ out := by
      intro hm
      rw [← h] at hm
      have := List.of_mem_filter hm
      simp at this
    refine ⟨hout, fun written hw hm => ?_⟩
    unfold fors2Strip at hw
    obtain ⟨k, _, hwr⟩ := Option.map_eq_some'.mp hw
    rw [← hwr] at hm
    rcases List.mem_append.mp hm with h1 | h1
    · exact hout (List.take_subset _ _ h1)
    · exact hout (List.drop_subset _ _ h1)
  · simp [retrieveFors2Calib, hf] at h

theorem retrieve_fors2_calib_no_bang_witness : '!' ∉ (['a', 'b'] : List Char) :=
  (retrieve_fors2_calib_no_bang "I_BESS" ['a', '!', 'b'] ['a', 'b'] (by decide)).1

lemma findSub_eq (pat : List Char) (s : List Char) (i0 : Nat)
    (hocc : occursAt s pat i0 = true)
    (hfirst : ∀ k < i0, occursAt s pat k = false) :
    findSub pat s = some i0 := by
  induction s generalizing i0 with
  | nil =>
    have h0 : i0 = 0 := by
      by_contra hne
      have := hfirst 0 (Nat.pos_of_ne_zero hne)
      have h00 : occursAt ([] : List Char) pat 0 = occursAt ([] : List Char) pat i0 := by
        simp [occursAt]
      rw [h00, hocc] at this
      simp at this
    subst h0
    simp only [occursAt, List.drop_nil] at hocc
    simp [findSub, hocc]
  | cons c cs ih =>
    match i0 with
    | 0 =>
      simp only [occursAt, List.drop_zero] at hocc
      simp [findSub, hocc]
    | m + 1 =>
      have hc : pat.isPrefixOf (c :: cs) = false := by
        have := hfirst 0 (Nat.succ_pos m)
        simpa [occursAt] using this
      have hocc' : occursAt cs pat m = true := by
        simpa [occursAt, List.drop_succ_cons] using hocc
      have hfirst' : ∀ k < m, occursAt cs pat k = false := by
        intro k hk
        have := hfirst (k + 1) (Nat.succ_lt_succ hk)
        simpa [occursAt, List.drop_succ_cons] using this
      simp [findSub, hc, ih m hocc' hfirst']

lemma searchBack_eq (s pat : List Char) (iStar n : Nat) (hle : iStar ≤ n)
    (hocc : occursAt s pat iStar = true)
    (hnone : ∀ k, iStar < k → k ≤ n → occursAt s pat k = false) :
    searchBack s pat n = some iStar := by
  induction n with
  | zero =>
    have h0 : iStar = 0 := Nat.le_zero.mp hle
    subst h0
    simp [searchBack, hocc]
  | succ m ih =>
    by_cases htop : iStar = m + 1
    · subst htop
      simp [searchBack, hocc]
    · have hlt : iStar ≤ m := Nat.lt_succ_iff.mp (Nat.lt_of_le_of_ne hle htop)
      have hfail : occursAt s pat (m + 1) = false :=
        hnone (m + 1) (Nat.lt_succ_of_le hlt) (Nat.le_refl _)
      have ih' := ih hlt (fun k hk hk2 => hnone k hk (Nat.le_succ_of_le hk2))
      simp [searchBack, hfail, ih']

/-- C4: for an XML response in which `"extinction.tbl"` first occurs at
index `i0` and `"https://"` occurs at some index at or before `i0`, the
extraction in `retrieve_irsa_extinction` returns exactly the substring
starting at the nearest occurrence of `"https://"` at or to the left of
`i0` and ending at the end of that occurrence of `"extinction.tbl"`
(`irsa_xml[iStar : i0 + 14]`). -/
theorem irsa_table_url_extraction (s : List Char) (i0 iStar : Nat)
    (he : occursAt s extTblPat i0 = true)
    (hefirst : ∀ k < i0, occursAt s extTblPat k = false)
    (hh : occursAt s httpsPat iStar = true)
    (hle : iStar ≤ i0)
    (hnear : ∀ k < i0 + 1, iStar < k → occursAt s httpsPat k = false) :
    irsaTableUrl s = some ((s.drop iStar).take (i0 + 14 - iStar)) := by
  have h1 := findSub_eq extTblPat s i0 he hefirst
  have h2 := searchBack_eq s httpsPat iStar i0 hle hh
    (fun k hk hk2 => hnear k (Nat.lt_succ_of_le hk2) hk)
  simp [irsaTableUrl, h1, h2]

theorem irsa_table_url_extraction_witness :
    irsaTableUrl ("xx https://a/extinction.tbl yy").toList =
      some ((("xx https://a/extinction.tbl yy").toList.drop 3).take 24) :=
  irsa_table_url_extraction ("xx https://a/extinction.tbl yy").toList 13 3
    (by decide) (by decide) (by decide) (by decide) (by decide)

/-- C7: the response-parsing routines are deterministic in the response:
two runs on the same fixed string yield the same result, for the FORS2
header stripping, the IRSA table-URL extraction, and the IRSA parameter
extraction (the latter delegates to `utils.extract_xml_param`, which lives
outside `retrieve.py` and is modelled here as an arbitrary pure function
`extractParam` of the XML string). -/
theorem parsing_routines_deterministic (s t : List Char)
    (extractParam : List Char → List Char) (h : s = t) :
    fors2Strip s = fors2Strip t ∧ irsaTableUrl s = irsaTableUrl t ∧
      extractParam s = extractParam t := by
  subst h
  exact ⟨rfl, rfl, rfl⟩

theorem parsing_routines_deterministic_witness :
    fors2Strip ("a\n-x").toList = fors2Strip ("a\n-x").toList ∧
      irsaTableUrl ("a\n-x").toList = irsaTableUrl ("a\n-x").toList ∧
        id ("a\n-x").toList = id ("a\n-x").toList :=
  parsing_routines_deterministic ("a\n-x").toList ("a\n-x").toList id rfl

lemma desPoll_none_pending : ∀ fuel k, desPoll pendingSeq k fuel = none := by
  intro fuel
  induction fuel with
  | zero => intro k; rfl
  | succ f ih =>
    intro k
    simp [desPoll, pendingSeq, ih]

/-- C2 counterexample: the claim asserts a bound on the number of polling
iterations for every sequence of server responses, but against a server
that always answers status `'ok'` with job status `'pending'` the loop of
`job_status_poll_des` never returns: no amount of fuel makes it yield a
result. -/
theorem job_status_poll_des_unbounded_cex :
    ¬ ∃ fuel, (jobStatusPollDes pendingSeq fuel).isSome := by
  rintro ⟨fuel, h⟩
  rw [jobStatusPollDes, desPoll_none_pending fuel 0] at h
  simp at h

lemma desPoll_isSome_of_stop (resps : Nat → DesResponse) (s f : Nat)
    (h : StopResp (resps s)) : (desPoll resps s (f + 1)).isSome := by
  unfold desPoll
  by_cases c1 : (resps s).status ≠ "ok"
  · simp [c1]
  · by_cases c2 : (resps s).jobStatus = "success" ∨ (resps s).jobStatus = "failure"
    · simp [c1, c2]
    · by_cases c3 : (resps s).jobStatus = "ok"
      · simp [c1, c2, c3]
      · rcases h with h | h | h | h
        · exact absurd h c1
        · exact absurd (Or.inl h) c2
        · exact absurd (Or.inr h) c2
        · exact absurd h c3

lemma desPoll_not_stop_step (resps : Nat → DesResponse) (s f : Nat)
    (hs : ¬ StopResp (resps s)) :
    desPoll resps s (f + 1) = desPoll resps (s + 1) f := by
  have c1 : ¬ (resps s).status ≠ "ok" := fun hc => hs (Or.inl hc)
  have c2 : ¬ ((resps s).jobStatus = "success" ∨ (resps s).jobStatus = "failure") := by
    rintro (hc | hc)
    · exact hs (Or.inr (Or.inl hc))
    · exact hs (Or.inr (Or.inr (Or.inl hc)))
  have c3 : ¬ (resps s).jobStatus = "ok" := fun hc => hs (Or.inr (Or.inr (Or.inr hc)))
  simp [desPoll, c1, c2, c3]

lemma desPoll_reach (resps : Nat → DesResponse) :
    ∀ k s, StopResp (resps (s + k)) → (desPoll resps s (k + 1)).isSome := by
  intro k
  induction k with
  | zero =>
    intro s h
    exact desPoll_isSome_of_stop resps s 0 (by simpa using h)
  | succ m ih =>
    intro s h
    by_cases hs : StopResp (resps s)
    · exact desPoll_isSome_of_stop resps s (m + 1) hs
    · rw [desPoll_not_stop_step resps s (m + 1) hs]
      have harith : s + (m + 1) = (s + 1) + m := by omega
      rw [harith] at h
      exact ih (s + 1) h

lemma desPoll_some_stop (resps : Nat → DesResponse) :
    ∀ fuel s, (desPoll resps s fuel).isSome → ∃ k, StopResp (resps (s + k)) := by
  intro fuel
  induction fuel with
  | zero =>
    intro s h
    simp [desPoll] at h
  | succ f ih =>
    intro s h
    by_cases hs : StopResp (resps s)
    · exact ⟨0, by simpa using hs⟩
    · rw [desPoll_not_stop_step resps s f hs] at h
      obtain ⟨k, hk⟩ := ih (s + 1) h
      refine ⟨k + 1, ?_⟩
      have harith : s + (k + 1) = (s + 1) + k := by omega
      rw [harith]
      exact hk

/-- C2 amended: the polling loop of `job_status_poll_des` is not bounded in
general; it terminates exactly when some server response satisfies a stop
condition — status different from `'ok'`, or job status `'success'`,
`'failure'` (or `'ok'`, which falsifies the `while` condition).  Against a
server that never sends such a response (see the counterexample) it polls
forever. -/
theorem job_status_poll_des_termination (resps : Nat → DesResponse) :
    (∃ fuel, (jobStatusPollDes resps fuel).isSome) ↔ ∃ k, StopResp (resps k) := by
  constructor
  · rintro ⟨fuel, h⟩
    obtain ⟨k, hk⟩ := desPoll_some_stop resps fuel 0 h
    exact ⟨k, by simpa using hk⟩
  · rintro ⟨k, hk⟩
    exact ⟨k + 1, desPoll_reach resps k 0 (by simpa using hk)⟩

/-- C3 counterexample: `retrieve_fors2_calib`, a public retrieval
operation, signals an unrecognised filter by raising `ValueError`
(line 28), not by returning `None`/`False` or printing. -/
theorem no_exception_failure_cex :
    retrieveFors2Calib "not_a_filter" [] = .raise "ValueError" := by decide

/-- C3 amended: failure paths in `retrieve.py` are reported by returning
`None`/`False` or printing a diagnostic, with two exceptions: the filter
check of `retrieve_fors2_calib` raises `ValueError` (line 28) and
`check_auth_token_des` raises `KeyError` when no auth token is stored
(line 322); other cited failure paths (missing SciServer or empty result in
`retrieve_sdss_photometry`, empty retrieval in `save_sdss_photometry`)
return `None` without raising. -/
theorem failure_reporting_modes (fil : String) (ks : List String) :
    (fil ∉ fors2FiltersRetrievable →
      ∀ body : List Char, retrieveFors2Calib fil body = .raise "ValueError") ∧
      ("des_auth_token" ∉ ks → checkAuthTokenDes ks = .raise "KeyError") ∧
      (∀ df, retrieveSdssPhotometry false df = none) ∧
      (∀ output, saveSdssPhotometry none output = ([], none)) := by
  refine ⟨fun h body => ?_, fun h => ?_, fun df => ?_, fun output => ?_⟩
  · simp [retrieveFors2Calib, h]
  · simp [checkAuthTokenDes, h]
  · rfl
  · rfl

theorem failure_reporting_modes_witness :
    retrieveFors2Calib "BAD" [] = .raise "ValueError" ∧
      checkAuthTokenDes [] = .raise "KeyError" :=
  ⟨(failure_reporting_modes "BAD" []).1 (by decide) [],
    (failure_reporting_modes "BAD" []).2.1 (by decide)⟩

lemma downloadItems_eq_mirror (url output : String) (l : List RItem) :
    wellTypedItems l = true → downloadItems url output l = mirrorItems url output l := by
  induction url, output, l using downloadItems.induct with
  | case1 u o =>
    intro _
    simp [downloadItems, mirrorItems]
  | case2 u o t n c ch rest ih1 ih2 =>
    intro h
    simp only [wellTypedItems, Bool.and_eq_true, Bool.or_eq_true, beq_iff_eq] at h
    obtain ⟨hhead, htail⟩ := h
    rcases hhead with hf | ⟨hd, hch⟩
    · subst hf
      simp [downloadItems, mirrorItems, ih2 htail]
    · subst hd
      simp [downloadItems, mirrorItems, ih1 hch, ih2 htail]

/-- C5: on a listing in which every item has type `'file'` or
`'directory'` (recursively), `download_job_files_des` creates the output
directory and mirrors the remote tree rooted at `url` under `output` —
each file item's downloaded content is written to `output/<name>`, each
directory item is recursed into from `url/<name>` into `output/<name>` —
and it returns the JSON listing of the top-level `url`. -/
theorem download_job_files_des_mirrors (url output : String) (listing : List RItem)
    (h : wellTypedItems listing = true) :
    downloadJobFilesDes url output listing =
      (FsOp.mkdirp output :: FsOp.getJson url :: mirrorItems url output listing, listing) := by
  unfold downloadJobFilesDes
  rw [downloadItems_eq_mirror url output listing h]

theorem download_job_files_des_mirrors_witness :
    downloadJobFilesDes "u" "o"
        [RItem.mk "file" "a" [1] [], RItem.mk "directory" "d" [] [RItem.mk "file" "b" [2] []]] =
      (FsOp.mkdirp "o" :: FsOp.getJson "u" ::
        mirrorItems "u" "o"
          [RItem.mk "file" "a" [1] [], RItem.mk "directory" "d" [] [RItem.mk "file" "b" [2] []]],
        [RItem.mk "file" "a" [1] [], RItem.mk "directory" "d" [] [RItem.mk "file" "b" [2] []]]) :=
  download_job_files_des_mirrors "u" "o"
    [RItem.mk "file" "a" [1] [], RItem.mk "directory" "d" [] [RItem.mk "file" "b" [2] []]]
    (by simp [wellTypedItems])

/-- C6: for `save_sdss_photometry` and `save_des_photometry`, the output
file is written if and only if the underlying retrieval returned data;
when the retrieval returned `None`, the function performs no filesystem
operation at all (neither the file nor its parent directories are created)
and returns `None`. -/
theorem save_photometry_write_iff_data (df : Option (List Char)) (data : Option (List Nat))
    (output : String) :
    ((∃ c, FsOp.writeText output c ∈ (saveSdssPhotometry df output).1) ↔ df.isSome) ∧
      (df = none → saveSdssPhotometry df output = ([], none)) ∧
      ((∃ b, FsOp.writeBytes output b ∈ (saveDesPhotometry data output).1) ↔ data.isSome) ∧
      (data = none → saveDesPhotometry data output = ([], none)) := by
  refine ⟨?_, ?_, ?_, ?_⟩
  · cases df with
    | none => simp [saveSdssPhotometry]
    | some d =>
      simp only [saveSdssPhotometry, Option.isSome_some, iff_true]
      exact ⟨d, by simp⟩
  · intro h
    subst h
    rfl
  · cases data with
    | none => simp [saveDesPhotometry]
    | some d =>
      simp only [saveDesPhotometry, Option.isSome_some, iff_true]
      exact ⟨d, by simp⟩
  · intro h
    subst h
    rfl

theorem save_photometry_write_iff_data_witness :
    saveSdssPhotometry none "p" = ([], none) ∧ saveDesPhotometry none "p" = ([], none) :=
  ⟨(save_photometry_write_iff_data none none "p").2.1 rfl,
    (save_photometry_write_iff_data none none "p").2.2.2 rfl⟩
